import Mathlib

/-!
Verification of the toilet-paper roll physics core: the roll model of
`src/hooks/useRollPhysics.ts`, the Verlet "ladder" cloth simulation of
`src/hooks/useClothSimulation.ts`, and the row-management loop of the 3D
scene component.  Real numbers stand in for JavaScript's floating-point
numbers; an auxiliary `Option`-based number model is used where the code's
non-finite (NaN/Infinity) guards matter.
-/

namespace TPG

noncomputable section

-- ─── Roll model (useRollPhysics.ts) ──────────────────────────────────

/-- Mirrors `RollPhysicsConfig` of useRollPhysics.ts. -/
structure RollPhysicsConfig where
  maxLengthCm : ℝ
  friction : ℝ
  sensitivity : ℝ
  paperThicknessCm : ℝ
  coreRadiusCm : ℝ
  outerRadiusCm : ℝ

/-- Mirrors `DEFAULT_CONFIG` of useRollPhysics.ts. -/
def defaultRollConfig : RollPhysicsConfig :=
  { maxLengthCm := 500, friction := 0.92, sensitivity := 0.008,
    paperThicknessCm := 0.01, coreRadiusCm := 2.0, outerRadiusCm := 5.5 }

/-- Mirrors `calculateRadius` of useRollPhysics.ts: linear interpolation of
the paper *area* between core and outer disc, then back to a radius. -/
def calculateRadius (unrolledLength : ℝ) (config : RollPhysicsConfig) : ℝ :=
  let fraction := 1 - unrolledLength / config.maxLengthCm
  let outerArea := Real.pi * config.outerRadiusCm * config.outerRadiusCm
  let coreArea := Real.pi * config.coreRadiusCm * config.coreRadiusCm
  let currentArea := coreArea + (outerArea - coreArea) * fraction
  Real.sqrt (currentArea / Real.pi)

/-- Mirrors `RollPhysicsState`, together with the hook's `lastPointerY` ref
(which the pointer handlers read and write). -/
structure RollPhysicsState where
  angularVelocity : ℝ
  totalRotation : ℝ
  unrolledLength : ℝ
  isDragging : Bool
  lastPointerY : Option ℝ

/-- Mirrors the body of `animate` in useRollPhysics.ts.  The raw frame delta
`(timestamp - lastTimestamp) / 1000` is taken as the input `dtRaw`; the
function applies the source's `Math.min(..., 0.05)` cap itself. -/
def animate (config : RollPhysicsConfig) (dtRaw : ℝ) (s : RollPhysicsState) :
    RollPhysicsState :=
  let dt := min dtRaw 0.05
  if s.isDragging = false ∧ 0.01 < |s.angularVelocity| then
    let av1 := s.angularVelocity * config.friction
    let currentRadius := calculateRadius s.unrolledLength config
    let lengthDelta := av1 * currentRadius * dt
    let rot := s.totalRotation + av1 * dt
    let u := max 0 (min config.maxLengthCm (s.unrolledLength + lengthDelta))
    let av2 := if |av1| < 0.01 then 0 else av1
    let av3 := if u ≤ 0 ∨ config.maxLengthCm ≤ u then 0 else av2
    { s with angularVelocity := av3, totalRotation := rot, unrolledLength := u }
  else s

/-- Mirrors `onPointerDown` of useRollPhysics.ts. -/
def onPointerDown (clientY : ℝ) (s : RollPhysicsState) : RollPhysicsState :=
  { s with isDragging := true, angularVelocity := 0, lastPointerY := some clientY }

/-- Mirrors `onPointerMove` of useRollPhysics.ts. -/
def onPointerMove (config : RollPhysicsConfig) (clientY : ℝ)
    (s : RollPhysicsState) : RollPhysicsState :=
  match s.lastPointerY with
  | none => s
  | some y0 =>
    if s.isDragging = false then s
    else
      let deltaY := clientY - y0
      let angularDelta := deltaY * config.sensitivity
      let av := angularDelta * 60
      let currentRadius := calculateRadius s.unrolledLength config
      let lengthDelta := angularDelta * currentRadius
      let rot := s.totalRotation + angularDelta
      let u := max 0 (min config.maxLengthCm (s.unrolledLength + lengthDelta))
      { s with angularVelocity := av, totalRotation := rot,
               unrolledLength := u, lastPointerY := some clientY }

/-- Mirrors `onPointerUp` of useRollPhysics.ts. -/
def onPointerUp (s : RollPhysicsState) : RollPhysicsState :=
  { s with isDragging := false, lastPointerY := none }

/-- Mirrors `setUnrolledLength` of useRollPhysics.ts. -/
def setUnrolledLength (config : RollPhysicsConfig) (lengthCm : ℝ)
    (s : RollPhysicsState) : RollPhysicsState :=
  { s with unrolledLength := max 0 (min config.maxLengthCm lengthCm),
           angularVelocity := 0 }

/-- One externally driven event of the roll-physics hook. -/
inductive RollOp where
  | down (clientY : ℝ)
  | move (clientY : ℝ)
  | up
  | tick (dtRaw : ℝ)
  | setLen (lengthCm : ℝ)

/-- Dispatches one event to the matching handler. -/
def runOp (config : RollPhysicsConfig) (s : RollPhysicsState) : RollOp → RollPhysicsState
  | RollOp.down y => onPointerDown y s
  | RollOp.move y => onPointerMove config y s
  | RollOp.up => onPointerUp s
  | RollOp.tick d => animate config d s
  | RollOp.setLen v => setUnrolledLength config v s

/-- Runs a whole event sequence. -/
def runOps (config : RollPhysicsConfig) (s : RollPhysicsState)
    (ops : List RollOp) : RollPhysicsState :=
  ops.foldl (runOp config) s

-- ─── Helper lemmas for the radius formula ────────────────────────────

lemma calculateRadius_eq_sqrt (u : ℝ) (cfg : RollPhysicsConfig) :
    calculateRadius u cfg =
      Real.sqrt (cfg.coreRadiusCm * cfg.coreRadiusCm +
        (cfg.outerRadiusCm * cfg.outerRadiusCm -
          cfg.coreRadiusCm * cfg.coreRadiusCm) * (1 - u / cfg.maxLengthCm)) := by
  show Real.sqrt ((Real.pi * cfg.coreRadiusCm * cfg.coreRadiusCm +
      (Real.pi * cfg.outerRadiusCm * cfg.outerRadiusCm -
        Real.pi * cfg.coreRadiusCm * cfg.coreRadiusCm) *
          (1 - u / cfg.maxLengthCm)) / Real.pi) = _
  congr 1
  have hpi : Real.pi ≠ 0 := Real.pi_ne_zero
  field_simp
  ring

lemma calculateRadius_nonneg (u : ℝ) (cfg : RollPhysicsConfig) :
    0 ≤ calculateRadius u cfg := Real.sqrt_nonneg _

/-- Both radius bounds, in the form used by several claims below. -/
lemma calculateRadius_bounds (cfg : RollPhysicsConfig)
    (hcore : 0 ≤ cfg.coreRadiusCm) (hle : cfg.coreRadiusCm ≤ cfg.outerRadiusCm)
    (hmax : 0 < cfg.maxLengthCm) (u : ℝ) (hu0 : 0 ≤ u) (huM : u ≤ cfg.maxLengthCm) :
    cfg.coreRadiusCm ≤ calculateRadius u cfg ∧
      calculateRadius u cfg ≤ cfg.outerRadiusCm := by
  have houter : 0 ≤ cfg.outerRadiusCm := le_trans hcore hle
  have hsq : cfg.coreRadiusCm * cfg.coreRadiusCm ≤
      cfg.outerRadiusCm * cfg.outerRadiusCm := mul_self_le_mul_self hcore hle
  have hf0 : 0 ≤ 1 - u / cfg.maxLengthCm := by
    have : u / cfg.maxLengthCm ≤ 1 := (div_le_one hmax).mpr huM
    linarith
  have hf1 : 1 - u / cfg.maxLengthCm ≤ 1 := by
    have : 0 ≤ u / cfg.maxLengthCm := div_nonneg hu0 hmax.le
    linarith
  rw [calculateRadius_eq_sqrt]
  constructor
  · have hlow : cfg.coreRadiusCm * cfg.coreRadiusCm ≤
        cfg.coreRadiusCm * cfg.coreRadiusCm +
          (cfg.outerRadiusCm * cfg.outerRadiusCm -
            cfg.coreRadiusCm * cfg.coreRadiusCm) * (1 - u / cfg.maxLengthCm) := by
      nlinarith
    calc cfg.coreRadiusCm = Real.sqrt (cfg.coreRadiusCm * cfg.coreRadiusCm) :=
          (Real.sqrt_mul_self hcore).symm
      _ ≤ _ := Real.sqrt_le_sqrt hlow
  · have hhigh : cfg.coreRadiusCm * cfg.coreRadiusCm +
        (cfg.outerRadiusCm * cfg.outerRadiusCm -
          cfg.coreRadiusCm * cfg.coreRadiusCm) * (1 - u / cfg.maxLengthCm) ≤
        cfg.outerRadiusCm * cfg.outerRadiusCm := by nlinarith
    calc Real.sqrt _ ≤ Real.sqrt (cfg.outerRadiusCm * cfg.outerRadiusCm) :=
          Real.sqrt_le_sqrt hhigh
      _ = cfg.outerRadiusCm := Real.sqrt_mul_self houter

-- ─── Claim theorems (roll radius) ────────────────────────────────────

/-- Claim C1: `calculateRadius` equals `sqrt(area/π)` for the linearly
interpolated area; on `[0, maxLength]` it stays within
`[coreRadius, outerRadius]`, is monotonically non-increasing in the unrolled
length, equals `outerRadius` at `0` and equals `coreRadius` (within any
epsilon: exactly, in real arithmetic) at `maxLength`. -/
theorem C1_radius_area_formula_bounds_monotone (cfg : RollPhysicsConfig)
    (hcore : 0 ≤ cfg.coreRadiusCm) (hlt : cfg.coreRadiusCm < cfg.outerRadiusCm)
    (hmax : 0 < cfg.maxLengthCm) (u : ℝ) (hu0 : 0 ≤ u) (huM : u ≤ cfg.maxLengthCm) :
    calculateRadius u cfg =
      Real.sqrt ((Real.pi * cfg.coreRadiusCm * cfg.coreRadiusCm +
        (Real.pi * cfg.outerRadiusCm * cfg.outerRadiusCm -
          Real.pi * cfg.coreRadiusCm * cfg.coreRadiusCm) *
            (1 - u / cfg.maxLengthCm)) / Real.pi) ∧
    cfg.coreRadiusCm ≤ calculateRadius u cfg ∧
    calculateRadius u cfg ≤ cfg.outerRadiusCm ∧
    (∀ u2, u ≤ u2 → u2 ≤ cfg.maxLengthCm →
      calculateRadius u2 cfg ≤ calculateRadius u cfg) ∧
    calculateRadius 0 cfg = cfg.outerRadiusCm ∧
    calculateRadius cfg.maxLengthCm cfg = cfg.coreRadiusCm := by
  have houter : 0 ≤ cfg.outerRadiusCm := le_trans hcore hlt.le
  have hsq : cfg.coreRadiusCm * cfg.coreRadiusCm ≤
      cfg.outerRadiusCm * cfg.outerRadiusCm := mul_self_le_mul_self hcore hlt.le
  refine ⟨?_, (calculateRadius_bounds cfg hcore hlt.le hmax u hu0 huM).1,
    (calculateRadius_bounds cfg hcore hlt.le hmax u hu0 huM).2, ?_, ?_, ?_⟩
  · rfl
  · intro u2 h12 h2M
    rw [calculateRadius_eq_sqrt, calculateRadius_eq_sqrt]
    apply Real.sqrt_le_sqrt
    have hdiv : u / cfg.maxLengthCm ≤ u2 / cfg.maxLengthCm :=
      div_le_div_of_nonneg_right h12 hmax.le
    nlinarith
  · rw [calculateRadius_eq_sqrt]
    have : (0 : ℝ) / cfg.maxLengthCm = 0 := zero_div _
    rw [this]
    have : cfg.coreRadiusCm * cfg.coreRadiusCm +
        (cfg.outerRadiusCm * cfg.outerRadiusCm -
          cfg.coreRadiusCm * cfg.coreRadiusCm) * (1 - 0) =
        cfg.outerRadiusCm * cfg.outerRadiusCm := by ring
    rw [this, Real.sqrt_mul_self houter]
  · rw [calculateRadius_eq_sqrt]
    have hd : cfg.maxLengthCm / cfg.maxLengthCm = 1 := div_self hmax.ne'
    rw [hd]
    have : cfg.coreRadiusCm * cfg.coreRadiusCm +
        (cfg.outerRadiusCm * cfg.outerRadiusCm -
          cfg.coreRadiusCm * cfg.coreRadiusCm) * (1 - 1) =
        cfg.coreRadiusCm * cfg.coreRadiusCm := by ring
    rw [this, Real.sqrt_mul_self hcore]

/-- Witness for C1 at the hook's default configuration and `u = 100`. -/
theorem C1_witness :
    defaultRollConfig.coreRadiusCm ≤ calculateRadius 100 defaultRollConfig ∧
      calculateRadius 100 defaultRollConfig ≤ defaultRollConfig.outerRadiusCm := by
  have h := C1_radius_area_formula_bounds_monotone defaultRollConfig
    (by norm_num [defaultRollConfig]) (by norm_num [defaultRollConfig])
    (by norm_num [defaultRollConfig]) 100 (by norm_num)
    (by norm_num [defaultRollConfig])
  exact ⟨h.2.1, h.2.2.1⟩

-- ─── Claim C2: the length clamp invariant ────────────────────────────

lemma clamp_bounds (M x : ℝ) (hM : 0 ≤ M) :
    0 ≤ max 0 (min M x) ∧ max 0 (min M x) ≤ M :=
  ⟨le_max_left _ _, max_le hM (min_le_left M x)⟩

/-- Every handler of the hook keeps `unrolledLength` inside `[0, maxLengthCm]`. -/
lemma runOp_preserves_bounds (cfg : RollPhysicsConfig) (hM : 0 ≤ cfg.maxLengthCm)
    (s : RollPhysicsState) (h0 : 0 ≤ s.unrolledLength)
    (h1 : s.unrolledLength ≤ cfg.maxLengthCm) (op : RollOp) :
    0 ≤ (runOp cfg s op).unrolledLength ∧
      (runOp cfg s op).unrolledLength ≤ cfg.maxLengthCm := by
  cases op with
  | down y => exact ⟨h0, h1⟩
  | move y =>
    simp only [runOp, onPointerMove]
    split
    · exact ⟨h0, h1⟩
    · split
      · exact ⟨h0, h1⟩
      · exact clamp_bounds _ _ hM
  | up => exact ⟨h0, h1⟩
  | tick d =>
    simp only [runOp, animate]
    split
    · exact clamp_bounds _ _ hM
    · exact ⟨h0, h1⟩
  | setLen v => exact clamp_bounds _ _ hM

/-- Claim C2: under every sequence of drag samples, coast ticks, pointer
transitions and direct overrides, `unrolledLength` stays in `[0, maxLengthCm]`
(for a configuration with a non-negative maximum, starting in bounds). -/
theorem C2_unrolledLength_always_in_bounds (cfg : RollPhysicsConfig)
    (hM : 0 ≤ cfg.maxLengthCm) (s : RollPhysicsState)
    (h0 : 0 ≤ s.unrolledLength) (h1 : s.unrolledLength ≤ cfg.maxLengthCm)
    (ops : List RollOp) :
    0 ≤ (runOps cfg s ops).unrolledLength ∧
      (runOps cfg s ops).unrolledLength ≤ cfg.maxLengthCm := by
  induction ops generalizing s with
  | nil => exact ⟨h0, h1⟩
  | cons op rest ih =>
    have hstep := runOp_preserves_bounds cfg hM s h0 h1 op
    simpa [runOps, List.foldl_cons] using ih (runOp cfg s op) hstep.1 hstep.2

/-- Witness for C2: an adversarial sequence with a huge drag delta and a huge
direct override, from the empty roll state. -/
theorem C2_witness :
    0 ≤ (runOps defaultRollConfig ⟨0, 0, 0, false, none⟩
        [RollOp.down 0, RollOp.move 100000, RollOp.up, RollOp.tick 0.016,
          RollOp.setLen 99999]).unrolledLength ∧
      (runOps defaultRollConfig ⟨0, 0, 0, false, none⟩
        [RollOp.down 0, RollOp.move 100000, RollOp.up, RollOp.tick 0.016,
          RollOp.setLen 99999]).unrolledLength ≤ defaultRollConfig.maxLengthCm :=
  C2_unrolledLength_always_in_bounds defaultRollConfig
    (by norm_num [defaultRollConfig]) ⟨0, 0, 0, false, none⟩ (by norm_num)
    (by norm_num [defaultRollConfig]) _

-- ─── Claim C5: coast-down of the angular velocity ────────────────────

/-- Iterated coast ticks: `animate` applied over a list of frame deltas. -/
def coastRun (cfg : RollPhysicsConfig) (s : RollPhysicsState) (dts : List ℝ) :
    RollPhysicsState :=
  dts.foldl (fun t d => animate cfg d t) s

lemma sqrt_of_sq (a b : ℝ) (hb : 0 ≤ b) (h : a = b ^ 2) : Real.sqrt a = b := by
  rw [h, Real.sqrt_sq hb]

lemma animate_of_not_coasting (cfg : RollPhysicsConfig) (dtRaw : ℝ)
    (s : RollPhysicsState)
    (h : ¬(s.isDragging = false ∧ 0.01 < |s.angularVelocity|)) :
    animate cfg dtRaw s = s := by
  simp only [animate]
  rw [if_neg h]

lemma animate_isDragging (cfg : RollPhysicsConfig) (dtRaw : ℝ)
    (s : RollPhysicsState) :
    (animate cfg dtRaw s).isDragging = s.isDragging := by
  simp only [animate]
  split
  · rfl
  · rfl

/-- One coast step at velocity `friction ^ j * a0`: the velocity either hits
exactly `0` (snap or boundary) or decays to `friction ^ (j+1) * a0`, which is
still above the threshold as long as it is not exactly `0.01`. -/
lemma animate_coast_step (cfg : RollPhysicsConfig) (hf0 : 0 < cfg.friction)
    (dtRaw : ℝ) (a0 : ℝ) (j : ℕ) (s : RollPhysicsState)
    (hd : s.isDragging = false)
    (hinv : s.angularVelocity = 0 ∨
      (s.angularVelocity = cfg.friction ^ j * a0 ∧ 0.01 < |s.angularVelocity|))
    (hne : cfg.friction ^ (j + 1) * |a0| ≠ 0.01) :
    (animate cfg dtRaw s).angularVelocity = 0 ∨
      ((animate cfg dtRaw s).angularVelocity = cfg.friction ^ (j + 1) * a0 ∧
        0.01 < |(animate cfg dtRaw s).angularVelocity|) := by
  rcases hinv with h0 | ⟨hav, hgt⟩
  · left
    rw [animate_of_not_coasting cfg dtRaw s (by rw [h0]; norm_num), h0]
  · have habs : |s.angularVelocity * cfg.friction| = cfg.friction ^ (j + 1) * |a0| := by
      rw [hav, abs_mul, abs_mul, abs_pow, abs_of_pos hf0, pow_succ]
      ring
    simp only [animate]
    rw [if_pos (And.intro hd hgt)]
    by_cases hb : max 0 (min cfg.maxLengthCm
        (s.unrolledLength + s.angularVelocity * cfg.friction *
          calculateRadius s.unrolledLength cfg * min dtRaw 0.05)) ≤ 0 ∨
        cfg.maxLengthCm ≤ max 0 (min cfg.maxLengthCm
          (s.unrolledLength + s.angularVelocity * cfg.friction *
            calculateRadius s.unrolledLength cfg * min dtRaw 0.05))
    · left
      simp only [hb, if_pos, if_true]
    · by_cases hsnap : |s.angularVelocity * cfg.friction| < 0.01
      · left
        simp only [hsnap, if_true, hb, if_false]
      · right
        have hgt' : 0.01 < |s.angularVelocity * cfg.friction| := by
          rcases lt_or_eq_of_le (not_lt.mp hsnap) with h | h
          · exact h
          · exact absurd h.symm (by rw [habs]; exact hne)
        simp only [hsnap, if_false, hb]
        refine ⟨?_, hgt'⟩
        rw [hav, pow_succ]
        ring

/-- Running any list of coast ticks from a coasting state keeps the velocity
equal to `0` or to the geometrically decayed value. -/
lemma coastRun_invariant (cfg : RollPhysicsConfig) (hf0 : 0 < cfg.friction)
    (a0 : ℝ) (hne : ∀ k, cfg.friction ^ k * |a0| ≠ 0.01) :
    ∀ (dts : List ℝ) (j : ℕ) (s : RollPhysicsState),
      s.isDragging = false →
      (s.angularVelocity = 0 ∨
        (s.angularVelocity = cfg.friction ^ j * a0 ∧ 0.01 < |s.angularVelocity|)) →
      (coastRun cfg s dts).isDragging = false ∧
        ((coastRun cfg s dts).angularVelocity = 0 ∨
          ((coastRun cfg s dts).angularVelocity =
              cfg.friction ^ (j + dts.length) * a0 ∧
            0.01 < |(coastRun cfg s dts).angularVelocity|)) := by
  intro dts
  induction dts with
  | nil => intro j s hd hinv; exact ⟨hd, hinv⟩
  | cons d rest ih =>
    intro j s hd hinv
    have hd' : (animate cfg d s).isDragging = false := by
      rw [animate_isDragging]; exact hd
    have hstep := animate_coast_step cfg hf0 d a0 j s hd hinv (hne (j + 1))
    have := ih (j + 1) (animate cfg d s) hd' hstep
    have hl : (j + 1) + rest.length = j + (d :: rest).length := by
      simp [List.length_cons]; omega
    rw [hl] at this
    simpa [coastRun, List.foldl_cons] using this

/-- Claim C5 (amended): while coasting with `friction ∈ (0,1)` and
`|angularVelocity| > 0.01`, every tick strictly decreases the magnitude; and
provided the decayed magnitude never lands exactly on the `0.01` threshold,
the velocity is exactly `0` after any `N` ticks with
`friction ^ N * |angularVelocity| < 0.01`.  (As stated the claim is false:
a velocity whose decay hits exactly `0.01` sticks there forever, because the
coast branch requires `|angularVelocity| > 0.01` strictly and the snap
requires `< 0.01` strictly.) -/
theorem C5_coast_decay_and_termination (cfg : RollPhysicsConfig)
    (hf0 : 0 < cfg.friction) (hf1 : cfg.friction < 1) (s : RollPhysicsState)
    (hd : s.isDragging = false) (hgt : 0.01 < |s.angularVelocity|) :
    (∀ dtRaw, |(animate cfg dtRaw s).angularVelocity| < |s.angularVelocity|) ∧
    (∀ N : ℕ, (∀ k, cfg.friction ^ k * |s.angularVelocity| ≠ 0.01) →
      cfg.friction ^ N * |s.angularVelocity| < 0.01 →
      ∀ dts : List ℝ, N ≤ dts.length →
        (coastRun cfg s dts).angularVelocity = 0) := by
  constructor
  · intro dtRaw
    have hpos : 0 < |s.angularVelocity| := lt_trans (by norm_num) hgt
    have hmul : |s.angularVelocity * cfg.friction| < |s.angularVelocity| := by
      rw [abs_mul, abs_of_pos hf0]
      calc |s.angularVelocity| * cfg.friction
          < |s.angularVelocity| * 1 := by
            exact mul_lt_mul_of_pos_left hf1 hpos
        _ = |s.angularVelocity| := mul_one _
    simp only [animate]
    rw [if_pos (And.intro hd hgt)]
    split
    · simpa using hpos
    · split
      · simpa using hpos
      · exact hmul
  · intro N hne hN dts hlen
    have hinv0 : s.angularVelocity = 0 ∨
        (s.angularVelocity = cfg.friction ^ 0 * s.angularVelocity ∧
          0.01 < |s.angularVelocity|) := by
      right
      exact ⟨by rw [pow_zero, one_mul], hgt⟩
    have h := coastRun_invariant cfg hf0 s.angularVelocity hne dts 0 s hd hinv0
    rcases h.2 with h0 | ⟨heq, hbig⟩
    · exact h0
    · exfalso
      have habs : |(coastRun cfg s dts).angularVelocity| =
          cfg.friction ^ (0 + dts.length) * |s.angularVelocity| := by
        rw [heq, abs_mul, abs_pow, abs_of_pos hf0]
      have hle : cfg.friction ^ (0 + dts.length) * |s.angularVelocity| ≤
          cfg.friction ^ N * |s.angularVelocity| := by
        apply mul_le_mul_of_nonneg_right _ (abs_nonneg _)
        apply pow_le_pow_of_le_one hf0.le hf1.le
        omega
      rw [habs] at hbig
      linarith

/-- Witness for C5: friction `0.5`, initial velocity `0.03`, two full ticks
bring the velocity to exactly `0`. -/
theorem C5_witness :
    (coastRun { defaultRollConfig with friction := 0.5 }
        ⟨0.03, 0, 250, false, none⟩ [0.05, 0.05]).angularVelocity = 0 := by
  have habs : |(0.03 : ℝ)| = 0.03 := by
    rw [abs_of_pos]; norm_num
  refine (C5_coast_decay_and_termination { defaultRollConfig with friction := 0.5 }
    (by norm_num) (by norm_num) ⟨0.03, 0, 250, false, none⟩ rfl
    (by rw [show (⟨0.03, 0, 250, false, none⟩ :
        RollPhysicsState).angularVelocity = 0.03 from rfl, habs]; norm_num)).2
    2 ?_ ?_ [0.05, 0.05] (by norm_num)
  · intro k
    show (0.5 : ℝ) ^ k * |(0.03 : ℝ)| ≠ 0.01
    rw [habs]
    match k with
    | 0 => norm_num
    | 1 => norm_num
    | (k + 2) =>
      have hle : (0.5 : ℝ) ^ (k + 2) ≤ 0.5 ^ 2 :=
        pow_le_pow_of_le_one (by norm_num) (by norm_num) (by omega)
      have hpos : (0 : ℝ) < 0.5 ^ (k + 2) := by positivity
      intro hcontra
      nlinarith
  · show (0.5 : ℝ) ^ 2 * |(0.03 : ℝ)| < 0.01
    rw [habs]
    norm_num

/-- A coast tick whose updated length stays strictly inside `(0, maxLengthCm)`
and whose decayed velocity does not snap leaves the velocity at exactly
`angularVelocity * friction`. -/
lemma animate_interior_value (cfg : RollPhysicsConfig) (dtRaw : ℝ)
    (s : RollPhysicsState) (hd : s.isDragging = false)
    (hgt : 0.01 < |s.angularVelocity|)
    (hnb : 0 < s.unrolledLength + s.angularVelocity * cfg.friction *
      calculateRadius s.unrolledLength cfg * min dtRaw 0.05)
    (hnb2 : s.unrolledLength + s.angularVelocity * cfg.friction *
      calculateRadius s.unrolledLength cfg * min dtRaw 0.05 < cfg.maxLengthCm)
    (hns : ¬ |s.angularVelocity * cfg.friction| < 0.01) :
    (animate cfg dtRaw s).angularVelocity =
      s.angularVelocity * cfg.friction := by
  simp only [animate]
  rw [if_pos (And.intro hd hgt)]
  rw [min_eq_right (le_of_lt hnb2), max_eq_right (le_of_lt hnb)]
  rw [if_neg (by push_neg; exact ⟨hnb, hnb2⟩)]
  rw [if_neg hns]

/-- Counterexample for C5 as stated: with friction `0.5` and initial
velocity `0.02`, one tick decays the velocity to exactly `0.01`; there the
coast branch (`|v| > 0.01`) no longer fires and the snap (`|v| < 0.01`)
never fired, so the state is an exact fixed point of `animate` — the
velocity never becomes `0`. -/
theorem C5_counterexample :
    (animate { defaultRollConfig with friction := 0.5 } 0.05
        ⟨0.02, 0, 250, false, none⟩).angularVelocity = 0.01 ∧
      animate { defaultRollConfig with friction := 0.5 } 0.05
          (animate { defaultRollConfig with friction := 0.5 } 0.05
            ⟨0.02, 0, 250, false, none⟩) =
        animate { defaultRollConfig with friction := 0.5 } 0.05
          ⟨0.02, 0, 250, false, none⟩ ∧
      (0.01 : ℝ) ≠ 0 := by
  set cfg5 : RollPhysicsConfig := { defaultRollConfig with friction := 0.5 }
    with hcfg
  set s0 : RollPhysicsState := ⟨0.02, 0, 250, false, none⟩ with hs0
  have hcore : cfg5.coreRadiusCm = 2 := by rw [hcfg]; norm_num [defaultRollConfig]
  have houter : cfg5.outerRadiusCm = 5.5 := by
    rw [hcfg]; norm_num [defaultRollConfig]
  have hmaxL : cfg5.maxLengthCm = 500 := by rw [hcfg]; norm_num [defaultRollConfig]
  have hfric : cfg5.friction = 0.5 := by rw [hcfg]
  have hrb : 2 ≤ calculateRadius 250 cfg5 ∧ calculateRadius 250 cfg5 ≤ 5.5 := by
    have h := calculateRadius_bounds cfg5 (by rw [hcore]; norm_num)
      (by rw [hcore, houter]; norm_num) (by rw [hmaxL]; norm_num) 250
      (by norm_num) (by rw [hmaxL]; norm_num)
    rw [hcore, houter] at h
    exact h
  have habs2 : |(0.02 : ℝ)| = 0.02 := abs_of_pos (by norm_num)
  have hmain : (animate cfg5 0.05 s0).angularVelocity = 0.01 := by
    have h := animate_interior_value cfg5 0.05 s0 rfl
      (by show (0.01 : ℝ) < |(0.02 : ℝ)|; rw [habs2]; norm_num)
      (by show (0 : ℝ) < 250 + 0.02 * cfg5.friction *
            calculateRadius 250 cfg5 * min 0.05 0.05
          rw [hfric, min_self]
          have := hrb.1
          linarith)
      (by show (250 : ℝ) + 0.02 * cfg5.friction *
            calculateRadius 250 cfg5 * min 0.05 0.05 < cfg5.maxLengthCm
          rw [hfric, min_self, hmaxL]
          have := hrb.2
          linarith)
      (by show ¬ |(0.02 : ℝ) * cfg5.friction| < 0.01
          rw [hfric]
          rw [show (0.02 : ℝ) * 0.5 = 0.01 by norm_num]
          rw [abs_of_pos (by norm_num : (0 : ℝ) < 0.01)]
          norm_num)
    rw [h]
    show (0.02 : ℝ) * cfg5.friction = 0.01
    rw [hfric]
    norm_num
  refine ⟨hmain, ?_, by norm_num⟩
  apply animate_of_not_coasting
  intro hcontra
  have h2 := hcontra.2
  rw [hmain] at h2
  rw [abs_of_pos (by norm_num : (0 : ℝ) < 0.01)] at h2
  norm_num at h2

-- ─── Claim C6: no boundary-zeroing inside the drag handler ───────────

/-- Counterexample for C6: a drag sample that slams `unrolledLength` into the
`maxLengthCm` boundary leaves `angularVelocity` at the momentum value `480`,
not `0` — `onPointerMove` has no boundary-zeroing step. -/
theorem C6_counterexample :
    (onPointerMove defaultRollConfig 1000 ⟨0, 0, 500, true, some 0⟩).unrolledLength
        = defaultRollConfig.maxLengthCm ∧
      (onPointerMove defaultRollConfig 1000
          ⟨0, 0, 500, true, some 0⟩).angularVelocity = 480 ∧
      (480 : ℝ) ≠ 0 := by
  have hr : calculateRadius 500 defaultRollConfig = 2 := by
    rw [calculateRadius_eq_sqrt]
    have : defaultRollConfig.coreRadiusCm * defaultRollConfig.coreRadiusCm +
        (defaultRollConfig.outerRadiusCm * defaultRollConfig.outerRadiusCm -
          defaultRollConfig.coreRadiusCm * defaultRollConfig.coreRadiusCm) *
            (1 - 500 / defaultRollConfig.maxLengthCm) = 2 ^ 2 := by
      norm_num [defaultRollConfig]
    rw [this, Real.sqrt_sq (by norm_num)]
  simp only [onPointerMove]
  norm_num [defaultRollConfig] at hr ⊢
  rw [hr]
  norm_num

/-- Claim C6 (amended): during a drag sample the angular velocity is set to
the momentum value `deltaY × sensitivity × 60` regardless of whether the
length clamp hits a boundary, and the length is clamped to
`[0, maxLengthCm]`; boundary-zeroing of the velocity happens only in the
coast tick (`animate`), whose velocity is zeroed whenever its updated length
ends at a boundary. -/
theorem C6_drag_sample_velocity (cfg : RollPhysicsConfig) (y y0 : ℝ)
    (s : RollPhysicsState) (hd : s.isDragging = true)
    (hly : s.lastPointerY = some y0) :
    (onPointerMove cfg y s).angularVelocity = (y - y0) * cfg.sensitivity * 60 ∧
    (onPointerMove cfg y s).unrolledLength =
      max 0 (min cfg.maxLengthCm (s.unrolledLength +
        (y - y0) * cfg.sensitivity * calculateRadius s.unrolledLength cfg)) ∧
    (∀ dtRaw t, t.isDragging = false → 0.01 < |t.angularVelocity| →
      ((animate cfg dtRaw t).unrolledLength ≤ 0 ∨
        cfg.maxLengthCm ≤ (animate cfg dtRaw t).unrolledLength) →
      (animate cfg dtRaw t).angularVelocity = 0) := by
  refine ⟨?_, ?_, ?_⟩
  · simp only [onPointerMove, hly, hd]
    norm_num
  · simp only [onPointerMove, hly, hd]
    norm_num
  · intro dtRaw t htd htv hb
    simp only [animate] at hb ⊢
    rw [if_pos (And.intro htd htv)] at hb ⊢
    split
    · rfl
    · exact absurd hb (by assumption)

/-- Witness for C6 at the counterexample's own input. -/
theorem C6_witness :
    (onPointerMove defaultRollConfig 1000
        ⟨0, 0, 500, true, some 0⟩).angularVelocity =
      (1000 - 0) * defaultRollConfig.sensitivity * 60 :=
  (C6_drag_sample_velocity defaultRollConfig 1000 0
    ⟨0, 0, 500, true, some 0⟩ rfl rfl).1

-- ─── Cloth simulation (useClothSimulation.ts) ────────────────────────

/-- Mirrors the `Vec3` record type of useClothSimulation.ts. -/
structure Vec3 where
  x : ℝ
  y : ℝ
  z : ℝ

/-- Mirrors `Particle`: current position and previous (Verlet) position. -/
structure Particle where
  x : ℝ
  y : ℝ
  z : ℝ
  px : ℝ
  py : ℝ
  pz : ℝ

attribute [ext] Vec3 Particle

/-- Mirrors `ClothConfig` of useClothSimulation.ts. -/
structure ClothConfig where
  segmentLength : ℝ
  gravity : ℝ
  damping : ℝ
  bendingStiffness : ℝ
  floorFriction : ℝ
  maxActiveRows : ℕ
  constraintIterations : ℕ
  subSteps : ℕ
  paperWidth : ℝ
  floorY : ℝ

/-- Mirrors `DEFAULT_CONFIG` of useClothSimulation.ts (values from
`src/constants.ts`). -/
def defaultClothConfig : ClothConfig :=
  { segmentLength := 1.0, gravity := -400, damping := 0.92,
    bendingStiffness := 0.4, floorFriction := 0.7, maxActiveRows := 150,
    constraintIterations := 12, subSteps := 8, paperWidth := 4.0,
    floorY := -3.5 }

/-- Mirrors `makeParticle`. -/
def makeParticle (pos : Vec3) : Particle :=
  ⟨pos.x, pos.y, pos.z, pos.x, pos.y, pos.z⟩

/-- Mirrors `integrateParticle` over the real-number model.  The source's
`isFinite` guard is vacuously true here (every real is finite); the guard
itself is modelled separately over `JNum` below, where non-finite values
exist. -/
def integrateParticle (p : Particle) (damping gravDt2 : ℝ) : Particle :=
  let vx := (p.x - p.px) * damping
  let vy := (p.y - p.py) * damping
  let vz := (p.z - p.pz) * damping
  ⟨p.x + vx, p.y + vy + gravDt2, p.z + vz, p.x, p.y, p.z⟩

/-- Mirrors `solveDistanceConstraint`: standard projection, the pinned side
absorbing none of the correction; a sub-epsilon distance skips the whole
correction. -/
def solveDistanceConstraint (a b : Particle) (restLength : ℝ) (pinA : Bool) :
    Particle × Particle :=
  let dx := b.x - a.x
  let dy := b.y - a.y
  let dz := b.z - a.z
  let dist := Real.sqrt (dx * dx + dy * dy + dz * dz)
  if dist < 1e-6 then (a, b)
  else
    let correction := (dist - restLength) / dist
    let cx := dx * correction * 0.5
    let cy := dy * correction * 0.5
    let cz := dz * correction * 0.5
    if pinA then
      (a, { b with x := b.x - cx * 2, y := b.y - cy * 2, z := b.z - cz * 2 })
    else
      ({ a with x := a.x + cx, y := a.y + cy, z := a.z + cz },
       { b with x := b.x - cx, y := b.y - cy, z := b.z - cz })

/-- Mirrors `clampToFloor`: push a below-floor particle back to the floor and
damp the horizontal component of its implicit velocity. -/
def clampToFloor (p : Particle) (floorY friction : ℝ) : Particle :=
  if p.y < floorY then
    let vx := p.x - p.px
    let vz := p.z - p.pz
    { p with y := floorY, py := floorY,
             px := p.x - vx * friction, pz := p.z - vz * friction }
  else p

/-- The loop body of `solveChainDistances`: the head pair is processed with
`pinA = (i == 0)`, then the (possibly moved) second particle heads the rest
of the chain. -/
def solveChainGo (restLength : ℝ) : ℕ → Particle → List Particle → List Particle
  | _, a, [] => [a]
  | i, a, b :: rest =>
    let q := solveDistanceConstraint a b restLength (i == 0)
    q.1 :: solveChainGo restLength (i + 1) q.2 rest

/-- Mirrors `solveChainDistances`. -/
def solveChainDistances (chain : List Particle) (restLength : ℝ) :
    List Particle :=
  match chain with
  | [] => []
  | a :: rest => solveChainGo restLength 0 a rest

/-- The loop body of `solveChainBending` over a sliding window `(a, b, c)`
standing for `chain[i], chain[i+1], chain[i+2]`.  NOTE: the source's
`if (dist < 1e-6) return;` aborts the whole remaining pass (it is a function
`return` inside the loop, not a `continue`); the abort branch therefore
returns the remaining particles unchanged. -/
def solveChainBendingGo (restLength stiffness : ℝ) :
    ℕ → Particle → Particle → List Particle → List Particle
  | _, a, b, [] => [a, b]
  | i, a, b, c :: rest =>
    let dx := c.x - a.x
    let dy := c.y - a.y
    let dz := c.z - a.z
    let dist := Real.sqrt (dx * dx + dy * dy + dz * dz)
    if dist < 1e-6 then a :: b :: c :: rest
    else
      let correction := ((dist - restLength) / dist) * stiffness * 0.5
      let cx := dx * correction
      let cy := dy * correction
      let cz := dz * correction
      if i == 0 then
        let c' : Particle := { c with x := c.x - cx * 2, y := c.y - cy * 2,
                                      z := c.z - cz * 2 }
        a :: solveChainBendingGo restLength stiffness (i + 1) b c' rest
      else
        let a' : Particle := { a with x := a.x + cx, y := a.y + cy,
                                      z := a.z + cz }
        let c' : Particle := { c with x := c.x - cx, y := c.y - cy,
                                      z := c.z - cz }
        a' :: solveChainBendingGo restLength stiffness (i + 1) b c' rest

/-- Mirrors `solveChainBending`. -/
def solveChainBending (chain : List Particle) (restLength stiffness : ℝ) :
    List Particle :=
  match chain with
  | a :: b :: rest => solveChainBendingGo restLength stiffness 0 a b rest
  | l => l

/-- Modelled from the spec's words ("skip correction if distance is below a
small epsilon", leaving the remaining corrections of the pass applied): the
variant of the bending pass whose degenerate case skips only the one
correction and continues with the next window. -/
def solveChainBendingSkipGo (restLength stiffness : ℝ) :
    ℕ → Particle → Particle → List Particle → List Particle
  | _, a, b, [] => [a, b]
  | i, a, b, c :: rest =>
    let dx := c.x - a.x
    let dy := c.y - a.y
    let dz := c.z - a.z
    let dist := Real.sqrt (dx * dx + dy * dy + dz * dz)
    if dist < 1e-6 then
      a :: solveChainBendingSkipGo restLength stiffness (i + 1) b c rest
    else
      let correction := ((dist - restLength) / dist) * stiffness * 0.5
      let cx := dx * correction
      let cy := dy * correction
      let cz := dz * correction
      if i == 0 then
        let c' : Particle := { c with x := c.x - cx * 2, y := c.y - cy * 2,
                                      z := c.z - cz * 2 }
        a :: solveChainBendingSkipGo restLength stiffness (i + 1) b c' rest
      else
        let a' : Particle := { a with x := a.x + cx, y := a.y + cy,
                                      z := a.z + cz }
        let c' : Particle := { c with x := c.x - cx, y := c.y - cy,
                                      z := c.z - cz }
        a' :: solveChainBendingSkipGo restLength stiffness (i + 1) b c' rest

/-- The skip-only variant of the whole bending pass. -/
def solveChainBendingSkip (chain : List Particle) (restLength stiffness : ℝ) :
    List Particle :=
  match chain with
  | a :: b :: rest => solveChainBendingSkipGo restLength stiffness 0 a b rest
  | l => l

/-- The loop body of `solveRungs`: row `i` couples `left[i]` with `right[i]`
at rest length `paperWidth`, row 0 pinned on the left side. -/
def solveRungsGo (paperWidth : ℝ) :
    ℕ → List Particle → List Particle → List Particle × List Particle
  | i, a :: ls, b :: rs =>
    let q := solveDistanceConstraint a b paperWidth (i == 0)
    let rest := solveRungsGo paperWidth (i + 1) ls rs
    (q.1 :: rest.1, q.2 :: rest.2)
  | _, ls, rs => (ls, rs)

/-- The two particle chains of `ClothSimulation` (index 0 = closest to the
roll). -/
structure Cloth where
  left : List Particle
  right : List Particle

/-- Mirrors the `rowCount` getter. -/
def Cloth.rowCount (c : Cloth) : ℕ := c.left.length

/-- Mirrors `pinFirstRow`: overwrite the row-0 particles (current and
previous position) with the exit anchors. -/
def pinFirstRow (exitLeft exitRight : Vec3) (c : Cloth) : Cloth :=
  match c.left, c.right with
  | l :: ls, r :: rs =>
    ⟨({ l with x := exitLeft.x, y := exitLeft.y, z := exitLeft.z,
               px := exitLeft.x, py := exitLeft.y, pz := exitLeft.z }) :: ls,
     ({ r with x := exitRight.x, y := exitRight.y, z := exitRight.z,
               px := exitRight.x, py := exitRight.y, pz := exitRight.z }) :: rs⟩
  | _, _ => c

/-- Mirrors `integrate`: Verlet-integrate every non-pinned particle (the
source loop runs over indices `1 ≤ i < left.length` of both chains; the
chains have equal length by the class invariant). -/
def integrateC (cfg : ClothConfig) (dt : ℝ) (c : Cloth) : Cloth :=
  let gravDt2 := cfg.gravity * dt * dt
  ⟨match c.left with
    | [] => []
    | h :: t => h :: t.map (fun p => integrateParticle p cfg.damping gravDt2),
   match c.right with
    | [] => []
    | h :: t => h :: t.map (fun p => integrateParticle p cfg.damping gravDt2)⟩

/-- Mirrors `applySpinPull`: extra downward displacement on non-pinned rows,
full strength at row 1 fading linearly to zero at the tip. -/
def applySpinPull (_cfg : ClothConfig) (dt spinRate : ℝ) (c : Cloth) : Cloth :=
  if |spinRate| < 0.5 then c
  else
    let n := c.left.length
    let maxAccel := 120 * |spinRate|
    let pull := fun (i : ℕ) (p : Particle) =>
      let t := 1 - ((i : ℝ) - 1) / ((n : ℝ) - 1)
      let accel := maxAccel * t * dt * dt
      { p with y := p.y - accel }
    ⟨match c.left with
      | [] => []
      | h :: tl => h :: tl.mapIdx (fun j p => pull (j + 1) p),
     match c.right with
      | [] => []
      | h :: tl => h :: tl.mapIdx (fun j p => pull (j + 1) p)⟩

/-- Mirrors `solveStructural`. -/
def solveStructuralC (cfg : ClothConfig) (c : Cloth) : Cloth :=
  ⟨solveChainDistances c.left cfg.segmentLength,
   solveChainDistances c.right cfg.segmentLength⟩

/-- Mirrors `solveRungs`. -/
def solveRungsC (cfg : ClothConfig) (c : Cloth) : Cloth :=
  let q := solveRungsGo cfg.paperWidth 0 c.left c.right
  ⟨q.1, q.2⟩

/-- Mirrors `solveBending`. -/
def solveBendingC (cfg : ClothConfig) (c : Cloth) : Cloth :=
  if cfg.bendingStiffness ≤ 0 then c
  else
    ⟨solveChainBending c.left (cfg.segmentLength * 2) cfg.bendingStiffness,
     solveChainBending c.right (cfg.segmentLength * 2) cfg.bendingStiffness⟩

/-- Mirrors `solveFloor`: clamp every non-pinned particle of both chains. -/
def solveFloorC (cfg : ClothConfig) (c : Cloth) : Cloth :=
  ⟨match c.left with
    | [] => []
    | h :: t => h :: t.map (fun p => clampToFloor p cfg.floorY cfg.floorFriction),
   match c.right with
    | [] => []
    | h :: t => h :: t.map (fun p => clampToFloor p cfg.floorY cfg.floorFriction)⟩

/-- One iteration of the constraint-solver loop inside `update`. -/
def constraintPass (cfg : ClothConfig) (c : Cloth) : Cloth :=
  solveFloorC cfg (solveBendingC cfg (solveRungsC cfg (solveStructuralC cfg c)))

/-- One sub-step of `update`: pin, integrate, spin-pull, the constraint
iterations, and the final floor clamp. -/
def substep (cfg : ClothConfig) (subDt : ℝ) (exitLeft exitRight : Vec3)
    (spinRate : ℝ) (c : Cloth) : Cloth :=
  solveFloorC cfg ((constraintPass cfg)^[cfg.constraintIterations]
    (applySpinPull cfg subDt spinRate
      (integrateC cfg subDt (pinFirstRow exitLeft exitRight c))))

/-- Mirrors `ClothSimulation.update`: early return on an empty cloth, cap
`dt` at `1/20`, then run the sub-steps. -/
def Cloth.update (cfg : ClothConfig) (dt : ℝ) (exitLeft exitRight : Vec3)
    (spinRate : ℝ) (c : Cloth) : Cloth :=
  if c.left.length = 0 then c
  else
    let dtc := min dt (1 / 20)
    let subDt := dtc / (cfg.subSteps : ℝ)
    (substep cfg subDt exitLeft exitRight spinRate)^[cfg.subSteps] c

/-- Mirrors `spawnRow`: no-op at capacity, else prepend a particle pair at
the anchors. -/
def spawnRow (cfg : ClothConfig) (exitLeft exitRight : Vec3) (c : Cloth) :
    Cloth :=
  if cfg.maxActiveRows ≤ c.left.length then c
  else if c.left.length = 0 then ⟨[makeParticle exitLeft], [makeParticle exitRight]⟩
  else ⟨makeParticle exitLeft :: c.left, makeParticle exitRight :: c.right⟩

/-- Mirrors `despawnRow`: no-op below two rows, else drop row 0. -/
def despawnRow (c : Cloth) : Cloth :=
  if c.left.length ≤ 1 then c else ⟨c.left.tail, c.right.tail⟩

/-- Mirrors `reset`. -/
def Cloth.reset (_c : Cloth) : Cloth := ⟨[], []⟩

-- ─── Structural lemmas: chain lengths ────────────────────────────────

lemma solveChainGo_length (rl : ℝ) :
    ∀ (i : ℕ) (a : Particle) (rest : List Particle),
      (solveChainGo rl i a rest).length = rest.length + 1 := by
  intro i a rest
  induction rest generalizing i a with
  | nil => rfl
  | cons b rest ih => simp [solveChainGo, ih]

lemma solveChainDistances_length (l : List Particle) (rl : ℝ) :
    (solveChainDistances l rl).length = l.length := by
  cases l with
  | nil => rfl
  | cons a rest => simp [solveChainDistances, solveChainGo_length]

lemma solveChainBendingGo_length (rl st : ℝ) :
    ∀ (rest : List Particle) (i : ℕ) (a b : Particle),
      (solveChainBendingGo rl st i a b rest).length = rest.length + 2 := by
  intro rest
  induction rest with
  | nil => intro i a b; rfl
  | cons c rest ih =>
    intro i a b
    simp only [solveChainBendingGo]
    split
    · simp
    · split
      · simp [ih]
      · simp [ih]

lemma solveChainBending_length (l : List Particle) (rl st : ℝ) :
    (solveChainBending l rl st).length = l.length := by
  match l with
  | [] => rfl
  | [a] => rfl
  | a :: b :: rest => simp [solveChainBending, solveChainBendingGo_length]

lemma solveChainBendingSkipGo_length (rl st : ℝ) :
    ∀ (rest : List Particle) (i : ℕ) (a b : Particle),
      (solveChainBendingSkipGo rl st i a b rest).length = rest.length + 2 := by
  intro rest
  induction rest with
  | nil => intro i a b; rfl
  | cons c rest ih =>
    intro i a b
    simp only [solveChainBendingSkipGo]
    split
    · simp [ih]
    · split
      · simp [ih]
      · simp [ih]

lemma solveRungsGo_length (w : ℝ) :
    ∀ (ls : List Particle) (i : ℕ) (rs : List Particle),
      (solveRungsGo w i ls rs).1.length = ls.length ∧
        (solveRungsGo w i ls rs).2.length = rs.length := by
  intro ls
  induction ls with
  | nil => intro i rs; cases rs <;> simp [solveRungsGo]
  | cons a ls ih =>
    intro i rs
    cases rs with
    | nil => simp [solveRungsGo]
    | cons b rs => simp [solveRungsGo, ih]

-- ─── Structural lemmas: each pass preserves both chain lengths ───────

lemma pinFirstRow_length (el er : Vec3) (c : Cloth) :
    (pinFirstRow el er c).left.length = c.left.length ∧
      (pinFirstRow el er c).right.length = c.right.length := by
  cases c with
  | mk l r => cases l <;> cases r <;> simp [pinFirstRow]

lemma integrateC_length (cfg : ClothConfig) (dt : ℝ) (c : Cloth) :
    (integrateC cfg dt c).left.length = c.left.length ∧
      (integrateC cfg dt c).right.length = c.right.length := by
  cases c with
  | mk l r => cases l <;> cases r <;> simp [integrateC]

lemma applySpinPull_length (cfg : ClothConfig) (dt spinRate : ℝ) (c : Cloth) :
    (applySpinPull cfg dt spinRate c).left.length = c.left.length ∧
      (applySpinPull cfg dt spinRate c).right.length = c.right.length := by
  unfold applySpinPull
  split
  · exact ⟨rfl, rfl⟩
  · cases c with
    | mk l r => cases l <;> cases r <;> simp

lemma solveStructuralC_length (cfg : ClothConfig) (c : Cloth) :
    (solveStructuralC cfg c).left.length = c.left.length ∧
      (solveStructuralC cfg c).right.length = c.right.length := by
  exact ⟨solveChainDistances_length _ _, solveChainDistances_length _ _⟩

lemma solveRungsC_length (cfg : ClothConfig) (c : Cloth) :
    (solveRungsC cfg c).left.length = c.left.length ∧
      (solveRungsC cfg c).right.length = c.right.length :=
  solveRungsGo_length cfg.paperWidth c.left 0 c.right

lemma solveBendingC_length (cfg : ClothConfig) (c : Cloth) :
    (solveBendingC cfg c).left.length = c.left.length ∧
      (solveBendingC cfg c).right.length = c.right.length := by
  unfold solveBendingC
  split
  · exact ⟨rfl, rfl⟩
  · exact ⟨solveChainBending_length _ _ _, solveChainBending_length _ _ _⟩

lemma solveFloorC_length (cfg : ClothConfig) (c : Cloth) :
    (solveFloorC cfg c).left.length = c.left.length ∧
      (solveFloorC cfg c).right.length = c.right.length := by
  cases c with
  | mk l r => cases l <;> cases r <;> simp [solveFloorC]

lemma constraintPass_length (cfg : ClothConfig) (c : Cloth) :
    (constraintPass cfg c).left.length = c.left.length ∧
      (constraintPass cfg c).right.length = c.right.length := by
  unfold constraintPass
  have h1 := solveStructuralC_length cfg c
  have h2 := solveRungsC_length cfg (solveStructuralC cfg c)
  have h3 := solveBendingC_length cfg (solveRungsC cfg (solveStructuralC cfg c))
  have h4 := solveFloorC_length cfg
    (solveBendingC cfg (solveRungsC cfg (solveStructuralC cfg c)))
  exact ⟨by rw [h4.1, h3.1, h2.1, h1.1], by rw [h4.2, h3.2, h2.2, h1.2]⟩

lemma constraintPass_iterate_length (cfg : ClothConfig) (k : ℕ) (c : Cloth) :
    ((constraintPass cfg)^[k] c).left.length = c.left.length ∧
      ((constraintPass cfg)^[k] c).right.length = c.right.length := by
  induction k generalizing c with
  | zero => exact ⟨rfl, rfl⟩
  | succ k ih =>
    rw [Function.iterate_succ_apply]
    have h := constraintPass_length cfg c
    have h2 := ih (constraintPass cfg c)
    exact ⟨by rw [h2.1, h.1], by rw [h2.2, h.2]⟩

lemma substep_length (cfg : ClothConfig) (subDt : ℝ) (el er : Vec3)
    (spinRate : ℝ) (c : Cloth) :
    (substep cfg subDt el er spinRate c).left.length = c.left.length ∧
      (substep cfg subDt el er spinRate c).right.length = c.right.length := by
  unfold substep
  have h1 := pinFirstRow_length el er c
  have h2 := integrateC_length cfg subDt (pinFirstRow el er c)
  have h3 := applySpinPull_length cfg subDt spinRate
    (integrateC cfg subDt (pinFirstRow el er c))
  have h4 := constraintPass_iterate_length cfg cfg.constraintIterations
    (applySpinPull cfg subDt spinRate (integrateC cfg subDt (pinFirstRow el er c)))
  have h5 := solveFloorC_length cfg ((constraintPass cfg)^[cfg.constraintIterations]
    (applySpinPull cfg subDt spinRate (integrateC cfg subDt (pinFirstRow el er c))))
  exact ⟨by rw [h5.1, h4.1, h3.1, h2.1, h1.1], by rw [h5.2, h4.2, h3.2, h2.2, h1.2]⟩

lemma substep_iterate_length (cfg : ClothConfig) (subDt : ℝ) (el er : Vec3)
    (spinRate : ℝ) (k : ℕ) (c : Cloth) :
    ((substep cfg subDt el er spinRate)^[k] c).left.length = c.left.length ∧
      ((substep cfg subDt el er spinRate)^[k] c).right.length = c.right.length := by
  induction k generalizing c with
  | zero => exact ⟨rfl, rfl⟩
  | succ k ih =>
    rw [Function.iterate_succ_apply]
    have h := substep_length cfg subDt el er spinRate c
    have h2 := ih (substep cfg subDt el er spinRate c)
    exact ⟨by rw [h2.1, h.1], by rw [h2.2, h.2]⟩

-- ─── Structural lemmas: the pinned row-0 particles ───────────────────

lemma sdc_fst_pin (a b : Particle) (rl : ℝ) :
    (solveDistanceConstraint a b rl true).1 = a := by
  simp only [solveDistanceConstraint]
  split
  · rfl
  · simp

/-- When the two endpoints are exactly at rest distance the whole correction
vanishes and the constraint moves neither particle. -/
lemma sdc_eq_of_dist_eq (a b : Particle) (restLength : ℝ) (pinA : Bool)
    (h : Real.sqrt ((b.x - a.x) * (b.x - a.x) + (b.y - a.y) * (b.y - a.y) +
      (b.z - a.z) * (b.z - a.z)) = restLength) :
    solveDistanceConstraint a b restLength pinA = (a, b) := by
  simp only [solveDistanceConstraint, h]
  split
  · rfl
  · simp only [sub_self, zero_div, mul_zero, zero_mul, sub_zero, add_zero]
    split
    · rfl
    · rfl

lemma integrateC_head_left (cfg : ClothConfig) (dt : ℝ) (c : Cloth) :
    (integrateC cfg dt c).left.head? = c.left.head? := by
  cases c with
  | mk l r => cases l <;> simp [integrateC]

lemma integrateC_head_right (cfg : ClothConfig) (dt : ℝ) (c : Cloth) :
    (integrateC cfg dt c).right.head? = c.right.head? := by
  cases c with
  | mk l r => cases r <;> simp [integrateC]

lemma applySpinPull_head_left (cfg : ClothConfig) (dt spinRate : ℝ) (c : Cloth) :
    (applySpinPull cfg dt spinRate c).left.head? = c.left.head? := by
  unfold applySpinPull
  split
  · rfl
  · cases c with
    | mk l r => cases l <;> simp

lemma applySpinPull_head_right (cfg : ClothConfig) (dt spinRate : ℝ) (c : Cloth) :
    (applySpinPull cfg dt spinRate c).right.head? = c.right.head? := by
  unfold applySpinPull
  split
  · rfl
  · cases c with
    | mk l r => cases r <;> simp

lemma solveFloorC_head_left (cfg : ClothConfig) (c : Cloth) :
    (solveFloorC cfg c).left.head? = c.left.head? := by
  cases c with
  | mk l r => cases l <;> simp [solveFloorC]

lemma solveFloorC_head_right (cfg : ClothConfig) (c : Cloth) :
    (solveFloorC cfg c).right.head? = c.right.head? := by
  cases c with
  | mk l r => cases r <;> simp [solveFloorC]

lemma solveChainDistances_head (l : List Particle) (rl : ℝ) :
    (solveChainDistances l rl).head? = l.head? := by
  match l with
  | [] => rfl
  | [a] => rfl
  | a :: b :: rest =>
    show (solveChainGo rl 0 a (b :: rest)).head? = _
    simp [solveChainGo, sdc_fst_pin]

lemma solveChainBending_head (l : List Particle) (rl st : ℝ) :
    (solveChainBending l rl st).head? = l.head? := by
  match l with
  | [] => rfl
  | [a] => rfl
  | a :: b :: rest =>
    show (solveChainBendingGo rl st 0 a b rest).head? = _
    cases rest with
    | nil => rfl
    | cons cc rest2 =>
      simp only [solveChainBendingGo]
      split
      · simp
      · simp

lemma solveStructuralC_head_left (cfg : ClothConfig) (c : Cloth) :
    (solveStructuralC cfg c).left.head? = c.left.head? :=
  solveChainDistances_head c.left cfg.segmentLength

lemma solveStructuralC_head_right (cfg : ClothConfig) (c : Cloth) :
    (solveStructuralC cfg c).right.head? = c.right.head? :=
  solveChainDistances_head c.right cfg.segmentLength

lemma solveBendingC_head_left (cfg : ClothConfig) (c : Cloth) :
    (solveBendingC cfg c).left.head? = c.left.head? := by
  unfold solveBendingC
  split
  · rfl
  · exact solveChainBending_head c.left _ _

lemma solveBendingC_head_right (cfg : ClothConfig) (c : Cloth) :
    (solveBendingC cfg c).right.head? = c.right.head? := by
  unfold solveBendingC
  split
  · rfl
  · exact solveChainBending_head c.right _ _

lemma solveRungsC_head_left (cfg : ClothConfig) (c : Cloth) :
    (solveRungsC cfg c).left.head? = c.left.head? := by
  cases c with
  | mk l r =>
    cases l with
    | nil => cases r <;> simp [solveRungsC, solveRungsGo]
    | cons a ls =>
      cases r with
      | nil => simp [solveRungsC, solveRungsGo]
      | cons b rs => simp [solveRungsC, solveRungsGo, sdc_fst_pin]

/-- The rung pass keeps both row-0 particles fixed when they sit exactly
`paperWidth` apart. -/
lemma solveRungsC_heads (cfg : ClothConfig) (A B : Particle)
    (hAB : solveDistanceConstraint A B cfg.paperWidth true = (A, B))
    (c : Cloth) (hL : c.left.head? = some A) (hR : c.right.head? = some B) :
    (solveRungsC cfg c).left.head? = some A ∧
      (solveRungsC cfg c).right.head? = some B := by
  cases c with
  | mk l r =>
    cases l with
    | nil => simp at hL
    | cons a ls =>
      cases r with
      | nil => simp at hR
      | cons b rs =>
        simp only [List.head?_cons, Option.some.injEq] at hL hR
        subst hL
        subst hR
        constructor
        · simp [solveRungsC, solveRungsGo, hAB]
        · simp [solveRungsC, solveRungsGo, hAB]

lemma constraintPass_head_left (cfg : ClothConfig) (c : Cloth) :
    (constraintPass cfg c).left.head? = c.left.head? := by
  unfold constraintPass
  rw [solveFloorC_head_left, solveBendingC_head_left, solveRungsC_head_left,
    solveStructuralC_head_left]

lemma constraintPass_heads (cfg : ClothConfig) (A B : Particle)
    (hAB : solveDistanceConstraint A B cfg.paperWidth true = (A, B))
    (c : Cloth) (hL : c.left.head? = some A) (hR : c.right.head? = some B) :
    (constraintPass cfg c).left.head? = some A ∧
      (constraintPass cfg c).right.head? = some B := by
  unfold constraintPass
  have hs : (solveStructuralC cfg c).left.head? = some A ∧
      (solveStructuralC cfg c).right.head? = some B := by
    rw [solveStructuralC_head_left, solveStructuralC_head_right]
    exact ⟨hL, hR⟩
  have hrg := solveRungsC_heads cfg A B hAB (solveStructuralC cfg c) hs.1 hs.2
  constructor
  · rw [solveFloorC_head_left, solveBendingC_head_left]
    exact hrg.1
  · rw [solveFloorC_head_right, solveBendingC_head_right]
    exact hrg.2

lemma constraintPass_iterate_heads (cfg : ClothConfig) (A B : Particle)
    (hAB : solveDistanceConstraint A B cfg.paperWidth true = (A, B)) (k : ℕ) :
    ∀ c : Cloth, c.left.head? = some A → c.right.head? = some B →
      ((constraintPass cfg)^[k] c).left.head? = some A ∧
        ((constraintPass cfg)^[k] c).right.head? = some B := by
  induction k with
  | zero => intro c hL hR; exact ⟨hL, hR⟩
  | succ k ih =>
    intro c hL hR
    rw [Function.iterate_succ_apply]
    have h := constraintPass_heads cfg A B hAB c hL hR
    exact ih (constraintPass cfg c) h.1 h.2

lemma constraintPass_iterate_head_left (cfg : ClothConfig) (k : ℕ) (c : Cloth) :
    ((constraintPass cfg)^[k] c).left.head? = c.left.head? := by
  induction k generalizing c with
  | zero => rfl
  | succ k ih =>
    rw [Function.iterate_succ_apply, ih, constraintPass_head_left]

lemma pinFirstRow_heads (el er : Vec3) (c : Cloth) (hl : c.left ≠ [])
    (hr : c.right ≠ []) :
    (pinFirstRow el er c).left.head? = some (makeParticle el) ∧
      (pinFirstRow el er c).right.head? = some (makeParticle er) := by
  cases c with
  | mk l r =>
    cases l with
    | nil => exact absurd rfl hl
    | cons a ls =>
      cases r with
      | nil => exact absurd rfl hr
      | cons b rs => simp [pinFirstRow, makeParticle]

/-- One sub-step forces row 0 to the anchors: on the left always, on the
right provided the anchors are exactly `paperWidth` apart. -/
lemma substep_heads (cfg : ClothConfig) (subDt : ℝ) (el er : Vec3)
    (spinRate : ℝ) (c : Cloth) (hl : c.left ≠ []) (hr : c.right ≠ []) :
    (substep cfg subDt el er spinRate c).left.head? = some (makeParticle el) ∧
      (solveDistanceConstraint (makeParticle el) (makeParticle er)
          cfg.paperWidth true = (makeParticle el, makeParticle er) →
        (substep cfg subDt el er spinRate c).right.head? =
          some (makeParticle er)) := by
  have hpin := pinFirstRow_heads el er c hl hr
  have hint : (integrateC cfg subDt (pinFirstRow el er c)).left.head? =
      some (makeParticle el) ∧
      (integrateC cfg subDt (pinFirstRow el er c)).right.head? =
        some (makeParticle er) := by
    rw [integrateC_head_left, integrateC_head_right]
    exact hpin
  have hsp : (applySpinPull cfg subDt spinRate
        (integrateC cfg subDt (pinFirstRow el er c))).left.head? =
      some (makeParticle el) ∧
      (applySpinPull cfg subDt spinRate
        (integrateC cfg subDt (pinFirstRow el er c))).right.head? =
        some (makeParticle er) := by
    rw [applySpinPull_head_left, applySpinPull_head_right]
    exact hint
  constructor
  · unfold substep
    rw [solveFloorC_head_left, constraintPass_iterate_head_left]
    exact hsp.1
  · intro hAB
    have hit := constraintPass_iterate_heads cfg (makeParticle el)
      (makeParticle er) hAB cfg.constraintIterations _ hsp.1 hsp.2
    unfold substep
    rw [solveFloorC_head_right]
    exact hit.2

/-- After `update` the row-0 particles are pinned: left always, right when
the anchors are `paperWidth` apart (shared by the C3 theorem and the C4
counterexample). -/
lemma update_pinned_heads (cfg : ClothConfig) (dt : ℝ) (el er : Vec3)
    (spinRate : ℝ) (c : Cloth) (hn : c.left ≠ [])
    (heq : c.left.length = c.right.length) (hs : 1 ≤ cfg.subSteps) :
    (Cloth.update cfg dt el er spinRate c).left.head? =
        some (makeParticle el) ∧
      (solveDistanceConstraint (makeParticle el) (makeParticle er)
          cfg.paperWidth true = (makeParticle el, makeParticle er) →
        (Cloth.update cfg dt el er spinRate c).right.head? =
          some (makeParticle er)) := by
  have hlen : c.left.length ≠ 0 := by
    intro h
    exact hn (List.length_eq_zero.mp h)
  unfold Cloth.update
  rw [if_neg hlen]
  obtain ⟨k, hk⟩ : ∃ k, cfg.subSteps = k + 1 := ⟨cfg.subSteps - 1, by omega⟩
  rw [hk, Function.iterate_succ_apply']
  generalize hgen : min dt (1 / 20) / ((k + 1 : ℕ) : ℝ) = d
  have hlen2 := substep_iterate_length cfg d el er spinRate k c
  have hl2 : ((substep cfg d el er spinRate)^[k] c).left ≠ [] := by
    intro h
    rw [← List.length_eq_zero] at h
    rw [hlen2.1] at h
    exact hlen h
  have hr2 : ((substep cfg d el er spinRate)^[k] c).right ≠ [] := by
    intro h
    rw [← List.length_eq_zero] at h
    rw [hlen2.2, ← heq] at h
    exact hlen h
  exact substep_heads cfg d el er spinRate _ hl2 hr2

lemma update_length (cfg : ClothConfig) (dt : ℝ) (el er : Vec3)
    (spinRate : ℝ) (c : Cloth) :
    (Cloth.update cfg dt el er spinRate c).left.length = c.left.length ∧
      (Cloth.update cfg dt el er spinRate c).right.length = c.right.length := by
  unfold Cloth.update
  split
  · exact ⟨rfl, rfl⟩
  · exact substep_iterate_length cfg _ el er spinRate cfg.subSteps c

-- ─── Floor-clamp lemmas ──────────────────────────────────────────────

lemma clampToFloor_y (p : Particle) (floorY fric : ℝ) :
    floorY ≤ (clampToFloor p floorY fric).y := by
  unfold clampToFloor
  split
  · exact le_refl _
  · exact le_of_not_lt (by assumption)

/-- After a floor pass every non-pinned particle sits at or above the floor. -/
lemma solveFloorC_tail_floor (cfg : ClothConfig) (c : Cloth) :
    (∀ p ∈ (solveFloorC cfg c).left.tail, cfg.floorY ≤ p.y) ∧
      (∀ p ∈ (solveFloorC cfg c).right.tail, cfg.floorY ≤ p.y) := by
  cases c with
  | mk l r =>
    constructor
    · cases l with
      | nil => intro p hp; simp [solveFloorC] at hp
      | cons h t =>
        intro p hp
        simp only [solveFloorC, List.tail_cons] at hp
        obtain ⟨q, _, rfl⟩ := List.mem_map.mp hp
        exact clampToFloor_y q _ _
    · cases r with
      | nil => intro p hp; simp [solveFloorC] at hp
      | cons h t =>
        intro p hp
        simp only [solveFloorC, List.tail_cons] at hp
        obtain ⟨q, _, rfl⟩ := List.mem_map.mp hp
        exact clampToFloor_y q _ _

-- ─── Claim C3: the pin invariant ─────────────────────────────────────

/-- Claim C3 (amended): after `update` the row-0 left particle equals the
left anchor exactly (position and previous position) for every anchor input;
the row-0 right particle equals the right anchor exactly provided the two
anchors are exactly `paperWidth` apart (as the caller guarantees).  As
stated, for arbitrary anchors, the claim is false: the row-0 rung constraint
treats only the left particle as pinned and moves the right one whenever the
anchor separation differs from `paperWidth`. -/
theorem C3_row0_pinned_to_anchors (cfg : ClothConfig) (dt spinRate : ℝ)
    (el er : Vec3) (c : Cloth) (hn : c.left ≠ [])
    (heq : c.left.length = c.right.length) (hs : 1 ≤ cfg.subSteps) :
    (Cloth.update cfg dt el er spinRate c).left.head? =
        some (makeParticle el) ∧
      (Real.sqrt ((er.x - el.x) * (er.x - el.x) + (er.y - el.y) * (er.y - el.y) +
          (er.z - el.z) * (er.z - el.z)) = cfg.paperWidth →
        (Cloth.update cfg dt el er spinRate c).right.head? =
          some (makeParticle er)) := by
  have h := update_pinned_heads cfg dt el er spinRate c hn heq hs
  refine ⟨h.1, fun hd => h.2 (sdc_eq_of_dist_eq _ _ _ _ ?_)⟩
  simpa [makeParticle] using hd

/-- Witness for C3: one simulated row, anchors `paperWidth = 4` apart. -/
theorem C3_witness :
    (Cloth.update defaultClothConfig 0.016 ⟨0, 0, 0⟩ ⟨4, 0, 0⟩ 0
        ⟨[makeParticle ⟨0, 0, 0⟩], [makeParticle ⟨4, 0, 0⟩]⟩).right.head? =
      some (makeParticle ⟨4, 0, 0⟩) := by
  refine (C3_row0_pinned_to_anchors defaultClothConfig 0.016 0 ⟨0, 0, 0⟩ ⟨4, 0, 0⟩
    ⟨[makeParticle ⟨0, 0, 0⟩], [makeParticle ⟨4, 0, 0⟩]⟩ (by simp) rfl
    (by norm_num [defaultClothConfig])).2 ?_
  have h4 : ((4 : ℝ) - 0) * (4 - 0) + (0 - 0) * (0 - 0) + (0 - 0) * (0 - 0)
      = 4 ^ 2 := by norm_num
  show Real.sqrt (((4 : ℝ) - 0) * (4 - 0) + (0 - 0) * (0 - 0) + (0 - 0) * (0 - 0))
      = defaultClothConfig.paperWidth
  rw [h4, Real.sqrt_sq (by norm_num)]
  norm_num [defaultClothConfig]

-- ─── Claim C4: the floor invariant ───────────────────────────────────

/-- Claim C4 (amended): after every `update` (with at least one sub-step) no
*non-pinned* particle — row index `≥ 1` in either chain — has `y` below
`floorY`; the final floor clamp of each sub-step guarantees it exactly (no
epsilon needed in real arithmetic).  As stated, over all inputs, the claim
is false for the pinned row 0, which follows the anchor even below the
floor: the floor pass deliberately starts at row 1. -/
theorem C4_no_particle_below_floor (cfg : ClothConfig) (dt : ℝ) (el er : Vec3)
    (spinRate : ℝ) (c : Cloth) (heq : c.left.length = c.right.length)
    (hs : 1 ≤ cfg.subSteps) :
    (∀ p ∈ (Cloth.update cfg dt el er spinRate c).left.tail, cfg.floorY ≤ p.y) ∧
      (∀ p ∈ (Cloth.update cfg dt el er spinRate c).right.tail,
        cfg.floorY ≤ p.y) := by
  unfold Cloth.update
  split
  · rename_i h0
    have hL : c.left = [] := List.length_eq_zero.mp h0
    have hR : c.right = [] := List.length_eq_zero.mp (by rw [← heq]; exact h0)
    rw [hL, hR]
    simp
  · obtain ⟨k, hk⟩ : ∃ k, cfg.subSteps = k + 1 := ⟨cfg.subSteps - 1, by omega⟩
    rw [hk, Function.iterate_succ_apply']
    exact solveFloorC_tail_floor cfg _

/-- Witness for C4 at a concrete one-row cloth. -/
theorem C4_witness :
    (∀ p ∈ (Cloth.update defaultClothConfig 0.016 ⟨0, 0, 0⟩ ⟨4, 0, 0⟩ 0
        ⟨[makeParticle ⟨0, 0, 0⟩], [makeParticle ⟨4, 0, 0⟩]⟩).left.tail,
      defaultClothConfig.floorY ≤ p.y) ∧
      (∀ p ∈ (Cloth.update defaultClothConfig 0.016 ⟨0, 0, 0⟩ ⟨4, 0, 0⟩ 0
          ⟨[makeParticle ⟨0, 0, 0⟩], [makeParticle ⟨4, 0, 0⟩]⟩).right.tail,
        defaultClothConfig.floorY ≤ p.y) :=
  C4_no_particle_below_floor defaultClothConfig 0.016 ⟨0, 0, 0⟩ ⟨4, 0, 0⟩ 0
    ⟨[makeParticle ⟨0, 0, 0⟩], [makeParticle ⟨4, 0, 0⟩]⟩ rfl
    (by norm_num [defaultClothConfig])

/-- Counterexample for C4 as stated: with the left anchor one unit below the
floor, the pinned row-0 particle ends `update` at `y = floorY - 1`, far below
`floorY - 1/100`. -/
theorem C4_counterexample :
    (Cloth.update defaultClothConfig 0.016 ⟨0, -4.5, 0⟩ ⟨4, -4.5, 0⟩ 0
        ⟨[makeParticle ⟨0, -4.5, 0⟩], [makeParticle ⟨4, -4.5, 0⟩]⟩).left.head? =
      some (makeParticle ⟨0, -4.5, 0⟩) ∧
      (makeParticle ⟨0, -4.5, 0⟩).y <
        defaultClothConfig.floorY - 1 / 100 := by
  constructor
  · exact (update_pinned_heads defaultClothConfig 0.016 ⟨0, -4.5, 0⟩ ⟨4, -4.5, 0⟩ 0
      ⟨[makeParticle ⟨0, -4.5, 0⟩], [makeParticle ⟨4, -4.5, 0⟩]⟩ (by simp) rfl
      (by norm_num [defaultClothConfig])).1
  · norm_num [makeParticle, defaultClothConfig]

/-- Counterexample for C3 as stated: with anchors only `1` apart (and
`paperWidth = 4`), one `update` moves the row-0 right particle to `x = 4`,
away from the right anchor — the rung constraint treats it as free. -/
theorem C3_counterexample :
    (Cloth.update
        { defaultClothConfig with subSteps := 1, constraintIterations := 1 }
        0.016 ⟨0, 0, 0⟩ ⟨1, 0, 0⟩ 0
        ⟨[makeParticle ⟨0, 0, 0⟩], [makeParticle ⟨1, 0, 0⟩]⟩).right.head? ≠
      some (makeParticle ⟨1, 0, 0⟩) := by
  set cfgX : ClothConfig :=
    { defaultClothConfig with subSteps := 1, constraintIterations := 1 } with hcfg
  set A : Particle := makeParticle ⟨0, 0, 0⟩ with hA
  set B : Particle := makeParticle ⟨1, 0, 0⟩ with hB
  set c0 : Cloth := ⟨[A], [B]⟩ with hc0
  have hsdc : solveDistanceConstraint A B (4.0 : ℝ) true =
      (A, (⟨4, 0, 0, 1, 0, 0⟩ : Particle)) := by
    rw [hA, hB]
    simp only [solveDistanceConstraint, makeParticle]
    norm_num [Real.sqrt_one]
  have hpin : pinFirstRow ⟨0, 0, 0⟩ ⟨1, 0, 0⟩ c0 = c0 := by
    simp [pinFirstRow, hc0, hA, hB, makeParticle]
  have hint : ∀ d : ℝ, integrateC cfgX d c0 = c0 := by
    intro d
    simp [integrateC, hc0]
  have hspin : ∀ d : ℝ, applySpinPull cfgX d 0 c0 = c0 := by
    intro d
    norm_num [applySpinPull]
  have hstruct : solveStructuralC cfgX c0 = c0 := rfl
  have hw : defaultClothConfig.paperWidth = 4 := by
    norm_num [defaultClothConfig]
  have hrungs : solveRungsC cfgX c0 = ⟨[A], [⟨4, 0, 0, 1, 0, 0⟩]⟩ := by
    simp [solveRungsC, solveRungsGo, hc0, hcfg, defaultClothConfig, hw, hsdc]
  have hbend : solveBendingC cfgX ⟨[A], [⟨4, 0, 0, 1, 0, 0⟩]⟩ =
      ⟨[A], [⟨4, 0, 0, 1, 0, 0⟩]⟩ := by
    have hst : cfgX.bendingStiffness = 0.4 := rfl
    unfold solveBendingC
    rw [if_neg (by rw [hst]; norm_num)]
    rfl
  have hfloor : ∀ x y : Particle, solveFloorC cfgX ⟨[x], [y]⟩ = ⟨[x], [y]⟩ := by
    intro x y
    simp [solveFloorC]
  have hpass : constraintPass cfgX c0 = ⟨[A], [⟨4, 0, 0, 1, 0, 0⟩]⟩ := by
    unfold constraintPass
    rw [hstruct, hrungs, hbend, hfloor]
  have hss : cfgX.subSteps = 1 := rfl
  have hci : cfgX.constraintIterations = 1 := rfl
  have hkey : Cloth.update cfgX 0.016 ⟨0, 0, 0⟩ ⟨1, 0, 0⟩ 0 c0 =
      ⟨[A], [⟨4, 0, 0, 1, 0, 0⟩]⟩ := by
    unfold Cloth.update
    rw [if_neg (by simp [hc0])]
    simp only [hss, Function.iterate_one]
    unfold substep
    simp only [hci, Function.iterate_one]
    rw [hpin, hint, hspin, hpass, hfloor]
  rw [hkey]
  simp only [List.head?_cons, ne_eq, Option.some.injEq]
  intro hcontra
  have hx : (4 : ℝ) = 1 := congrArg Particle.x hcontra
  norm_num at hx

-- ─── Claim C10: update changes no chain structure ────────────────────

/-- Claim C10: for every input and state, `update` preserves the row count
and both chain lengths — it only moves particles, never adds, removes or
reorders rows. -/
theorem C10_update_preserves_row_structure (cfg : ClothConfig) (dt : ℝ)
    (el er : Vec3) (spinRate : ℝ) (c : Cloth) :
    (Cloth.update cfg dt el er spinRate c).rowCount = c.rowCount ∧
      (Cloth.update cfg dt el er spinRate c).left.length = c.left.length ∧
      (Cloth.update cfg dt el er spinRate c).right.length = c.right.length := by
  have h := update_length cfg dt el er spinRate c
  exact ⟨h.1, h.1, h.2⟩

-- ─── Claim C7: chain lifecycle invariants ────────────────────────────

/-- Claim C7: `spawnRow`, `despawnRow`, `reset` and `update` all preserve the
invariant "equal chain lengths, at most `maxActiveRows` rows", and `spawnRow`
at capacity is exactly the identity. -/
theorem C7_lifecycle_preserves_invariants (cfg : ClothConfig) (el er : Vec3)
    (dt spinRate : ℝ) (c : Cloth) (hwf : c.left.length = c.right.length)
    (hcap : c.left.length ≤ cfg.maxActiveRows) :
    ((spawnRow cfg el er c).left.length = (spawnRow cfg el er c).right.length ∧
      (spawnRow cfg el er c).left.length ≤ cfg.maxActiveRows) ∧
    ((despawnRow c).left.length = (despawnRow c).right.length ∧
      (despawnRow c).left.length ≤ cfg.maxActiveRows) ∧
    ((Cloth.reset c).left.length = (Cloth.reset c).right.length ∧
      (Cloth.reset c).left.length ≤ cfg.maxActiveRows) ∧
    ((Cloth.update cfg dt el er spinRate c).left.length =
        (Cloth.update cfg dt el er spinRate c).right.length ∧
      (Cloth.update cfg dt el er spinRate c).left.length ≤ cfg.maxActiveRows) ∧
    (c.left.length = cfg.maxActiveRows → spawnRow cfg el er c = c) := by
  refine ⟨?_, ?_, ?_, ?_, ?_⟩
  · unfold spawnRow
    split
    · exact ⟨hwf, hcap⟩
    · rename_i hlt
      push_neg at hlt
      split
      · rename_i h0
        refine ⟨rfl, ?_⟩
        simp only [List.length_cons, List.length_nil]
        omega
      · simp only [List.length_cons]
        omega
  · unfold despawnRow
    split
    · exact ⟨hwf, hcap⟩
    · rename_i hgt
      push_neg at hgt
      simp only [List.length_tail]
      omega
  · exact ⟨rfl, Nat.zero_le _⟩
  · have h := update_length cfg dt el er spinRate c
    rw [h.1, h.2]
    exact ⟨hwf, hcap⟩
  · intro hfull
    unfold spawnRow
    rw [if_pos (le_of_eq hfull.symm)]

/-- Witness for C7 at a one-row cloth under the default configuration. -/
theorem C7_witness :
    ((spawnRow defaultClothConfig ⟨0, 0, 0⟩ ⟨4, 0, 0⟩
        ⟨[makeParticle ⟨0, 0, 0⟩], [makeParticle ⟨4, 0, 0⟩]⟩).left.length =
      (spawnRow defaultClothConfig ⟨0, 0, 0⟩ ⟨4, 0, 0⟩
        ⟨[makeParticle ⟨0, 0, 0⟩], [makeParticle ⟨4, 0, 0⟩]⟩).right.length ∧
      (spawnRow defaultClothConfig ⟨0, 0, 0⟩ ⟨4, 0, 0⟩
        ⟨[makeParticle ⟨0, 0, 0⟩], [makeParticle ⟨4, 0, 0⟩]⟩).left.length ≤
        defaultClothConfig.maxActiveRows) ∧
    ((despawnRow ⟨[makeParticle ⟨0, 0, 0⟩], [makeParticle ⟨4, 0, 0⟩]⟩).left.length =
      (despawnRow ⟨[makeParticle ⟨0, 0, 0⟩], [makeParticle ⟨4, 0, 0⟩]⟩).right.length ∧
      (despawnRow ⟨[makeParticle ⟨0, 0, 0⟩],
          [makeParticle ⟨4, 0, 0⟩]⟩).left.length ≤
        defaultClothConfig.maxActiveRows) ∧
    ((Cloth.reset ⟨[makeParticle ⟨0, 0, 0⟩], [makeParticle ⟨4, 0, 0⟩]⟩).left.length =
      (Cloth.reset ⟨[makeParticle ⟨0, 0, 0⟩],
          [makeParticle ⟨4, 0, 0⟩]⟩).right.length ∧
      (Cloth.reset ⟨[makeParticle ⟨0, 0, 0⟩],
          [makeParticle ⟨4, 0, 0⟩]⟩).left.length ≤
        defaultClothConfig.maxActiveRows) ∧
    ((Cloth.update defaultClothConfig 0.016 ⟨0, 0, 0⟩ ⟨4, 0, 0⟩ 0
        ⟨[makeParticle ⟨0, 0, 0⟩], [makeParticle ⟨4, 0, 0⟩]⟩).left.length =
      (Cloth.update defaultClothConfig 0.016 ⟨0, 0, 0⟩ ⟨4, 0, 0⟩ 0
        ⟨[makeParticle ⟨0, 0, 0⟩], [makeParticle ⟨4, 0, 0⟩]⟩).right.length ∧
      (Cloth.update defaultClothConfig 0.016 ⟨0, 0, 0⟩ ⟨4, 0, 0⟩ 0
        ⟨[makeParticle ⟨0, 0, 0⟩], [makeParticle ⟨4, 0, 0⟩]⟩).left.length ≤
        defaultClothConfig.maxActiveRows) ∧
    ((⟨[makeParticle ⟨0, 0, 0⟩], [makeParticle ⟨4, 0, 0⟩]⟩ :
        Cloth).left.length = defaultClothConfig.maxActiveRows →
      spawnRow defaultClothConfig ⟨0, 0, 0⟩ ⟨4, 0, 0⟩
        ⟨[makeParticle ⟨0, 0, 0⟩], [makeParticle ⟨4, 0, 0⟩]⟩ =
        ⟨[makeParticle ⟨0, 0, 0⟩], [makeParticle ⟨4, 0, 0⟩]⟩) :=
  C7_lifecycle_preserves_invariants defaultClothConfig ⟨0, 0, 0⟩ ⟨4, 0, 0⟩
    0.016 0 ⟨[makeParticle ⟨0, 0, 0⟩], [makeParticle ⟨4, 0, 0⟩]⟩ rfl
    (by norm_num [defaultClothConfig])

-- ─── Claim C8: row management in the scene's frame loop ──────────────

/-- Mirrors `targetRows` of the Scene `useFrame` callback:
`Math.max(1, Math.floor(s.unrolledLength / 1.0) + 1)` — note: not capped. -/
def targetRows (u : ℝ) : ℤ := max 1 (⌊u / 1.0⌋ + 1)

/-- Modelled from the spec: the claim's *capped* target row count,
`max(1, floor(unrolledLength / segmentLength) + 1)` capped at
`maxActiveRows`, for comparison with `targetRows`. -/
def targetRowsCapped (u : ℝ) (maxRows : ℕ) : ℤ :=
  min (max 1 (⌊u / 1.0⌋ + 1)) (maxRows : ℤ)

/-- The spawn `while`-loop of the frame callback, modelled with explicit
fuel: the real loop terminates exactly when every iteration makes progress,
which holds whenever the target is at most `maxActiveRows`. -/
def spawnLoop (cfg : ClothConfig) (el er : Vec3) (u : ℝ) (target : ℕ) :
    ℕ → Cloth → Cloth
  | 0, c => c
  | fuel + 1, c =>
    if c.rowCount < target ∧ 0.5 < u then
      spawnLoop cfg el er u target fuel (spawnRow cfg el er c)
    else c

/-- The despawn `while`-loop of the frame callback, with explicit fuel. -/
def despawnLoop (target : ℕ) : ℕ → Cloth → Cloth
  | 0, c => c
  | fuel + 1, c =>
    if target < c.rowCount ∧ 1 < c.rowCount then
      despawnLoop target fuel (despawnRow c)
    else c

/-- Mirrors the row-management block of the Scene `useFrame` callback:
compute the target, spawn up, despawn down, and reset when the unrolled
length drops under `0.5`. -/
def manageRows (cfg : ClothConfig) (el er : Vec3) (u : ℝ) (c : Cloth) :
    Cloth :=
  let target := (targetRows u).toNat
  let c1 := spawnLoop cfg el er u target target c
  let c2 := despawnLoop target c1.rowCount c1
  if u < 0.5 then Cloth.reset c2 else c2

lemma spawnRow_rowCount_of_lt (cfg : ClothConfig) (el er : Vec3) (c : Cloth)
    (h : c.left.length < cfg.maxActiveRows) :
    (spawnRow cfg el er c).rowCount = c.rowCount + 1 := by
  unfold spawnRow Cloth.rowCount
  rw [if_neg (by omega)]
  split
  · rename_i h0
    rw [h0]
    rfl
  · rfl

lemma spawnLoop_rowCount (cfg : ClothConfig) (el er : Vec3) (u : ℝ)
    (target : ℕ) (hu : 0.5 < u) (htm : target ≤ cfg.maxActiveRows) :
    ∀ (fuel : ℕ) (c : Cloth), target ≤ c.rowCount + fuel →
      (spawnLoop cfg el er u target fuel c).rowCount =
        max c.rowCount target := by
  intro fuel
  induction fuel with
  | zero =>
    intro c hle
    simp only [spawnLoop]
    omega
  | succ fuel ih =>
    intro c hle
    simp only [spawnLoop]
    split
    · rename_i hcond
      have hspawn := spawnRow_rowCount_of_lt cfg el er c (by
        have := hcond.1
        unfold Cloth.rowCount at this
        omega)
      have hrec := ih (spawnRow cfg el er c) (by omega)
      rw [hrec, hspawn]
      have h1 := hcond.1
      omega
    · rename_i hcond
      rw [not_and_or] at hcond
      rcases hcond with h | h
      · omega
      · exact absurd hu h

lemma despawnRow_rowCount_of_gt (c : Cloth) (h : 1 < c.left.length) :
    (despawnRow c).rowCount = c.rowCount - 1 := by
  unfold despawnRow Cloth.rowCount
  rw [if_neg (by omega)]
  simp [List.length_tail]

lemma despawnLoop_rowCount (target : ℕ) (ht : 1 ≤ target) :
    ∀ (fuel : ℕ) (c : Cloth), c.rowCount ≤ target + fuel →
      (despawnLoop target fuel c).rowCount = min c.rowCount target := by
  intro fuel
  induction fuel with
  | zero =>
    intro c hle
    simp only [despawnLoop]
    omega
  | succ fuel ih =>
    intro c hle
    simp only [despawnLoop]
    split
    · rename_i hcond
      have hdes := despawnRow_rowCount_of_gt c (by
        have := hcond.2
        unfold Cloth.rowCount at this
        omega)
      have hrec := ih (despawnRow c) (by omega)
      rw [hrec, hdes]
      have h1 := hcond.1
      omega
    · rename_i hcond
      rw [not_and_or] at hcond
      omega

/-- Claim C8 (amended): the frame loop computes the *uncapped* target
`max(1, floor(u / 1.0) + 1)` (the cap lives inside `spawnRow`, not in the
target formula); whenever that target is within `maxActiveRows` — always
true under the scene's `maxLengthCm = 100` — the spawn/despawn loops leave
`rowCount` exactly at the target for `u > 0.5`, and `reset()` empties the
cloth for `u < 0.5`. -/
theorem C8_frame_row_management (cfg : ClothConfig) (el er : Vec3) (u : ℝ)
    (c : Cloth) (htm : (targetRows u).toNat ≤ cfg.maxActiveRows) :
    (0.5 < u → (manageRows cfg el er u c).rowCount = (targetRows u).toNat) ∧
      (u < 0.5 → (manageRows cfg el er u c).rowCount = 0) ∧
      targetRows u = max 1 (⌊u / 1.0⌋ + 1) := by
  refine ⟨?_, ?_, rfl⟩
  · intro hu
    have ht1 : (1 : ℤ) ≤ targetRows u := le_max_left _ _
    have ht1n : 1 ≤ (targetRows u).toNat := by omega
    unfold manageRows
    rw [if_neg (by intro h; linarith)]
    have hc1 := spawnLoop_rowCount cfg el er u (targetRows u).toNat hu htm
      (targetRows u).toNat c (by omega)
    have hc2 := despawnLoop_rowCount (targetRows u).toNat ht1n
      (spawnLoop cfg el er u (targetRows u).toNat (targetRows u).toNat
          c).rowCount
      (spawnLoop cfg el er u (targetRows u).toNat (targetRows u).toNat c)
      (by omega)
    rw [hc2, hc1]
    omega
  · intro hu
    unfold manageRows
    rw [if_pos hu]
    rfl

/-- Counterexample for C8 as stated: at `u = 200` the code's target is
`201`, not the claimed value capped at `maxActiveRows = 150`. -/
theorem C8_counterexample :
    targetRows 200 = 201 ∧
      targetRowsCapped 200 defaultClothConfig.maxActiveRows = 150 ∧
      (201 : ℤ) ≠ 150 := by
  have hfl : ⌊(200 : ℝ) / 1.0⌋ = 200 := by norm_num
  refine ⟨?_, ?_, by norm_num⟩
  · unfold targetRows
    rw [hfl]
    norm_num
  · unfold targetRowsCapped
    rw [hfl]
    norm_num [defaultClothConfig]

/-- Witness for C8 at `u = 2`: the target is `3` rows. -/
theorem C8_witness :
    (0.5 < (2 : ℝ) →
      (manageRows defaultClothConfig ⟨0, 0, 0⟩ ⟨4, 0, 0⟩ 2
          ⟨[], []⟩).rowCount = (targetRows 2).toNat) ∧
      ((2 : ℝ) < 0.5 →
        (manageRows defaultClothConfig ⟨0, 0, 0⟩ ⟨4, 0, 0⟩ 2
          ⟨[], []⟩).rowCount = 0) ∧
      targetRows 2 = max 1 (⌊(2 : ℝ) / 1.0⌋ + 1) :=
  C8_frame_row_management defaultClothConfig ⟨0, 0, 0⟩ ⟨4, 0, 0⟩ 2 ⟨[], []⟩
    (by norm_num [targetRows, defaultClothConfig])

-- ─── Claim C9: numerical degeneracy handling ─────────────────────────

/-- A JavaScript number for the non-finiteness guard: `some r` is a finite
value, `none` stands for a non-finite one (NaN or ±Infinity). -/
abbrev JNum := Option ℝ

/-- Mirrors `isFinite`. -/
def isFiniteJ : JNum → Bool
  | some _ => true
  | none => false

/-- Addition propagating non-finite operands, as IEEE arithmetic does. -/
def jadd : JNum → JNum → JNum
  | some a, some b => some (a + b)
  | _, _ => none

/-- Subtraction propagating non-finite operands. -/
def jsub : JNum → JNum → JNum
  | some a, some b => some (a - b)
  | _, _ => none

/-- Multiplication propagating non-finite operands (overflow to Infinity is
not modelled). -/
def jmul : JNum → JNum → JNum
  | some a, some b => some (a * b)
  | _, _ => none

/-- A particle over `JNum`. -/
structure ParticleJ where
  x : JNum
  y : JNum
  z : JNum
  px : JNum
  py : JNum
  pz : JNum

/-- Mirrors `integrateParticle` including its non-finiteness guard: a
particle with any non-finite position coordinate is reverted to its previous
position and not integrated. -/
def integrateParticleJ (p : ParticleJ) (damping gravDt2 : ℝ) : ParticleJ :=
  if !(isFiniteJ p.x) || !(isFiniteJ p.y) || !(isFiniteJ p.z) then
    { p with x := p.px, y := p.py, z := p.pz }
  else
    let vx := jmul (jsub p.x p.px) (some damping)
    let vy := jmul (jsub p.y p.py) (some damping)
    let vz := jmul (jsub p.z p.pz) (some damping)
    ⟨jadd p.x vx, jadd (jadd p.y vy) (some gravDt2), jadd p.z vz,
     p.x, p.y, p.z⟩

/-- Claim C9, evaluated at the failing input. (1) The non-finite revert in
integration works as claimed. (2) A degenerate *structural/rung* constraint
skips only its own correction: in a chain whose first pair coincides, the
second pair is still corrected. (3) BUT a degenerate *bending* pair aborts
the whole remaining bending pass of that chain (the source `return`s out of
the loop instead of `continue`-ing): the chain below is returned entirely
unchanged, although the spec's skip-only variant would still correct the
`(1,3)` pair. -/
theorem C9_degeneracy_evaluation :
    integrateParticleJ ⟨none, some 1, some 2, some 3, some 4, some 5⟩
        0.92 (-1) = ⟨some 3, some 4, some 5, some 3, some 4, some 5⟩ ∧
      solveChainDistances
          [⟨0, 0, 0, 0, 0, 0⟩, ⟨0, 0, 0, 0, 0, 0⟩, ⟨2, 0, 0, 2, 0, 0⟩] 1 =
        [⟨0, 0, 0, 0, 0, 0⟩, ⟨0.5, 0, 0, 0, 0, 0⟩, ⟨1.5, 0, 0, 2, 0, 0⟩] ∧
      solveChainBending
          [⟨0, 0, 0, 0, 0, 0⟩, ⟨5, 0, 0, 5, 0, 0⟩, ⟨0, 0, 0, 0, 0, 0⟩,
            ⟨7, 0, 0, 7, 0, 0⟩] 1 1 =
        [⟨0, 0, 0, 0, 0, 0⟩, ⟨5, 0, 0, 5, 0, 0⟩, ⟨0, 0, 0, 0, 0, 0⟩,
          ⟨7, 0, 0, 7, 0, 0⟩] ∧
      solveChainBendingSkip
          [⟨0, 0, 0, 0, 0, 0⟩, ⟨5, 0, 0, 5, 0, 0⟩, ⟨0, 0, 0, 0, 0, 0⟩,
            ⟨7, 0, 0, 7, 0, 0⟩] 1 1 =
        [⟨0, 0, 0, 0, 0, 0⟩, ⟨5.5, 0, 0, 5, 0, 0⟩, ⟨0, 0, 0, 0, 0, 0⟩,
          ⟨6.5, 0, 0, 7, 0, 0⟩] := by
  have hs0 : Real.sqrt ((0 : ℝ) * 0 + 0 * 0 + 0 * 0) = 0 := by
    norm_num [Real.sqrt_zero]
  have hs4 : Real.sqrt (4 : ℝ) = 2 := by
    rw [show (4 : ℝ) = 2 ^ 2 by norm_num, Real.sqrt_sq (by norm_num)]
  refine ⟨rfl, ?_, ?_, ?_⟩
  · have h1 : solveDistanceConstraint (⟨0, 0, 0, 0, 0, 0⟩ : Particle)
        ⟨0, 0, 0, 0, 0, 0⟩ 1 true = (⟨0, 0, 0, 0, 0, 0⟩, ⟨0, 0, 0, 0, 0, 0⟩) := by
      simp only [solveDistanceConstraint]
      norm_num
    have h2 : solveDistanceConstraint (⟨0, 0, 0, 0, 0, 0⟩ : Particle)
        ⟨2, 0, 0, 2, 0, 0⟩ 1 false =
        (⟨0.5, 0, 0, 0, 0, 0⟩, ⟨1.5, 0, 0, 2, 0, 0⟩) := by
      simp only [solveDistanceConstraint]
      norm_num [hs4]
    simp [solveChainDistances, solveChainGo, h1, h2]
  · simp only [solveChainBending, solveChainBendingGo]
    norm_num
  · simp only [solveChainBendingSkip, solveChainBendingSkipGo]
    norm_num [hs4]

end

end TPG
